import Mathlib

/-!
Verification of the PowerBI RAG chat server (`server.js`).

The development shallowly embeds the request pipeline of the Express
server: the per-session conversation history store (a JS `Map` from
session id to an array of turns), the query rewriter `transformQuery`,
the orchestrator `processQuery`, and the HTTP handlers for
`POST /api/chat` and `POST /api/clear-history`.

External services (the Gemini LLM, the embedding API, Pinecone) are
modelled as an environment of functions returning `Except`, where
`Except.error` stands for a thrown exception and the error payload is
the exception's `message` string.  JSON values that may be absent or of
the wrong runtime type are modelled with `Option` and a small sum type
`JVal` distinguishing strings from every other JSON value, which is all
the code's `typeof` checks can observe.
-/

set_option autoImplicit false

namespace PowerBIRag

/-- A conversation role, `'user'` or `'model'` in the JS objects. -/
inductive Role where
  | user
  | model
deriving DecidableEq, Repr

/-- One history entry `{role, parts: [{text}]}`; the code always uses a
single part, so the `parts` array collapses to one text field. -/
structure Turn where
  role : Role
  text : String
deriving DecidableEq, Repr

/-- A JSON value as far as the server's `typeof x !== 'string'` checks can
distinguish it: either a string, or anything else (number, object, ...). -/
inductive JVal where
  | jstr (s : String)
  | jother
deriving DecidableEq, Repr

/-- The `conversationHistory` map, as an association list from session id
to turn sequence (JS `Map` keys are unique; insertion order preserved). -/
abbrev Store := List (String × List Turn)

/-- `conversationHistory.get(k)` / `conversationHistory.has(k)`. -/
def Store.find : Store → String → Option (List Turn)
  | [], _ => none
  | (k', v) :: rest, k => if k' = k then some v else Store.find rest k

/-- `conversationHistory.set(k, v)`: replace the entry in place if the key
exists, else add it at the end. -/
def Store.put : Store → String → List Turn → Store
  | [], k, v => [(k, v)]
  | (k', v') :: rest, k, v =>
      if k' = k then (k, v) :: rest else (k', v') :: Store.put rest k v

/-- `conversationHistory.delete(k)`. -/
def Store.del : Store → String → Store
  | [], _ => []
  | (k', v') :: rest, k =>
      if k' = k then Store.del rest k else (k', v') :: Store.del rest k

/-- The lazy get-or-create step (lines 79–81): create an empty history for
an unseen session id, otherwise leave the store alone. -/
def Store.ensure (s : Store) (k : String) : Store :=
  match Store.find s k with
  | some _ => s
  | none => Store.put s k []

/-- Read a session's history, empty when absent. -/
def histOf (s : Store) (k : String) : List Turn :=
  (Store.find s k).getD []

/-- The metadata object on a Pinecone match; only its `text` field is read
by the server, and it may be absent. -/
structure MatchMeta where
  text : Option String
deriving DecidableEq, Repr

/-- One entry of `searchResults.matches`; `metadata` may be absent. -/
structure PineMatch where
  metadata : Option MatchMeta
deriving DecidableEq, Repr

/-- The Pinecone query result; the `matches` array itself may be absent
(the code guards it with `?.`); named `found` here because `matches` is a
reserved word in Lean. -/
structure SearchResults where
  found : Option (List PineMatch)
deriving DecidableEq, Repr

/-- The environment of external services.  Each field models one external
call site; `Except.error e` models the call throwing an exception whose
`message` is `e`.  `rewriteText` is `response.text` of the rewriting LLM
call, which may be absent (`undefined`), hence the inner `Option`.  The
two `...InitFails` flags model the guarded constructor calls for the
embedding client and the Pinecone client throwing. -/
structure Env where
  rewriteText : List Turn → Except String (Option String)
  embedInitFails : Bool
  embedQuery : String → Except String (List Int)
  pineconeInitFails : Bool
  pineconeQuery : List Int → Except String SearchResults
  generateText : List Turn → String → Except String String

/-- JavaScript's `String.prototype.trim()`: drop leading and trailing
whitespace (defined structurally on the character list so that it
evaluates inside the kernel). -/
def jsTrim (s : String) : String :=
  String.mk (((s.data.dropWhile Char.isWhitespace).reverse.dropWhile
    Char.isWhitespace).reverse)

/-- `transformQuery(question, history)` (lines 42–65): build a temporary
history ending in the question as a user turn, call the rewriting LLM,
and return `response.text?.trim() || question`; any thrown error falls
back to the original question. -/
def transformQuery (env : Env) (question : String) (history : List Turn) : String :=
  let tempHistory := history ++ [Turn.mk Role.user question]
  match env.rewriteText tempHistory with
  | Except.error _ => question
  | Except.ok none => question
  | Except.ok (some t) => if jsTrim t = "" then question else jsTrim t

/-- The context block (lines 120–123):
`searchResults.matches?.map(m => m.metadata?.text || '').filter(t => t.length > 0).join("\n\n---\n\n") || ''`. -/
def buildContext (sr : SearchResults) : String :=
  match sr.found with
  | none => ""
  | some ms =>
      String.intercalate "\n\n---\n\n"
        ((ms.map fun m => ((m.metadata.bind MatchMeta.text).getD "")).filter
          (fun t => t.length != 0))

/-- The list of usable passage texts of a search result: each match's text
metadata when present and non-empty, in retrieval order. -/
def usableTexts (sr : SearchResults) : List String :=
  match sr.found with
  | none => []
  | some ms =>
      (ms.map fun m => ((m.metadata.bind MatchMeta.text).getD "")).filter
        (fun t => t.length != 0)

/-- Modelled from the spec: context assembly in the spec's own words
("taking each match's text metadata, filtering out passages with missing
or empty text metadata, and joining the survivors with the visible
separator, preserving retrieval order"), to be compared with the code's
`buildContext`. -/
def specContext (ms : List PineMatch) : String :=
  String.intercalate "\n\n---\n\n"
    (ms.filterMap fun m =>
      match m.metadata with
      | none => none
      | some md =>
          match md.text with
          | none => none
          | some t => if t = "" then none else some t)

/-- The fixed canned reply of the empty-retrieval short circuit (line 128). -/
def notFoundResponse : String :=
  "I could not find relevant information in the provided document."

/-- `error.message || 'An error occurred while processing your question.'`
(line 181): an empty message string is falsy in JS. -/
def errMsg (e : String) : String :=
  if e = "" then "An error occurred while processing your question." else e

/-- `sessionId` normalisation inside `processQuery` (lines 74–76): a
non-string or empty-string session id is replaced by `'default'`. -/
def sessionKey : JVal → String
  | JVal.jstr s => if s = "" then "default" else s
  | JVal.jother => "default"

/-- The session history `processQuery` starts from: the entry for the
normalised key after the lazy get-or-create step. -/
def sessionHist (store : Store) (sid : JVal) : List Turn :=
  histOf (Store.ensure store (sessionKey sid)) (sessionKey sid)

/-- `history.slice(-20)`: the last `n` elements of a list. -/
def lastN {α : Type} (n : Nat) (l : List α) : List α :=
  l.drop (l.length - n)

/-- The JSON body shapes the server produces: `processQuery` results,
the 400 validation reply, and the clear-history reply, all as one record
of optional fields. -/
structure JsonBody where
  success : Bool
  response : Option String
  transformedQuery : Option String
  error : Option String
  message : Option String
deriving DecidableEq, Repr

/-- The observable outcome of one `processQuery` call: the returned JSON
object, the conversation store afterwards, and whether the Answer
Generator LLM call was made (reached, successfully or not). -/
structure PQOut where
  result : JsonBody
  store : Store
  generatorCalled : Bool
deriving DecidableEq, Repr

/-- `processQuery(question, sessionId)` (lines 67–184), with the store
passed and returned explicitly in place of the module-level `Map` and the
mutation of the stored `history` array modelled by an immediate store
update.  `question` reaches this point as a string, so the input check
reduces to rejecting the empty (falsy) string. -/
def processQuery (env : Env) (question : String) (sid : JVal) (store : Store) : PQOut :=
  if question = "" then
    ⟨⟨false, none, none, some (errMsg "Invalid question provided"), none⟩, store, false⟩
  else
    let key := sessionKey sid
    let store1 := Store.ensure store key
    let history := histOf store1 key
    let transformedQuery := transformQuery env question history
    if env.embedInitFails then
      ⟨⟨false, none, none, some (errMsg "Embedding service unavailable"), none⟩, store1, false⟩
    else
      match env.embedQuery transformedQuery with
      | Except.error e => ⟨⟨false, none, none, some (errMsg e), none⟩, store1, false⟩
      | Except.ok queryVector =>
        if env.pineconeInitFails then
          ⟨⟨false, none, none, some (errMsg "Vector database unavailable"), none⟩, store1, false⟩
        else
          match env.pineconeQuery queryVector with
          | Except.error e => ⟨⟨false, none, none, some (errMsg e), none⟩, store1, false⟩
          | Except.ok searchResults =>
            let context := buildContext searchResults
            if context = "" then
              ⟨⟨true, some notFoundResponse, some transformedQuery, none, none⟩, store1, false⟩
            else
              let history2 := history ++ [Turn.mk Role.user transformedQuery]
              let store2 := Store.put store1 key history2
              match env.generateText history2 context with
              | Except.error e =>
                  ⟨⟨false, none, none, some (errMsg e), none⟩, store2, true⟩
              | Except.ok answerText =>
                  let history3 := history2 ++ [Turn.mk Role.model answerText]
                  let store3 :=
                    if history3.length > 20 then Store.put store2 key (lastN 20 history3)
                    else Store.put store2 key history3
                  ⟨⟨true, some answerText, some transformedQuery, none, none⟩, store3, true⟩

/-- The body of a `POST /api/chat` request: both fields may be absent and,
when present, of any JSON type. -/
structure ChatBody where
  question : Option JVal
  sessionId : Option JVal
deriving DecidableEq, Repr

/-- The body of a `POST /api/clear-history` request. -/
structure ClearBody where
  sessionId : Option JVal
deriving DecidableEq, Repr

/-- One HTTP response together with the store afterwards and the
generator-call flag. -/
structure HttpOut where
  status : Nat
  body : JsonBody
  store : Store
  generatorCalled : Bool
deriving DecidableEq, Repr

/-- The `/api/chat` handler's input validation (line 200):
`!question || typeof question !== 'string' || question.trim().length === 0`,
as the predicate "is a string with non-whitespace content". -/
def validQuestion : Option JVal → Bool
  | some (JVal.jstr q) => if jsTrim q = "" then false else true
  | _ => false

/-- The `POST /api/chat` handler (lines 196–217): validate the question,
apply the destructuring default `sessionId = 'default'`, run
`processQuery` on the trimmed question and reply with its result as JSON
(status 200). -/
def apiChat (env : Env) (body : ChatBody) (store : Store) : HttpOut :=
  match body.question with
  | some (JVal.jstr q) =>
      if jsTrim q = "" then
        ⟨400, ⟨false, none, none,
          some "Question is required and must be a non-empty string", none⟩, store, false⟩
      else
        let sid := body.sessionId.getD (JVal.jstr "default")
        let out := processQuery env (jsTrim q) sid store
        ⟨200, out.result, out.store, out.generatorCalled⟩
  | _ =>
      ⟨400, ⟨false, none, none,
        some "Question is required and must be a non-empty string", none⟩, store, false⟩

/-- The `POST /api/clear-history` handler (lines 220–229): delete the
session's entry (the destructuring default `'default'` applies when the
field is absent; a non-string id can match no string key of the map, so
the delete is a no-op) and reply with a 200 success body. -/
def apiClearHistory (body : ClearBody) (store : Store) : HttpOut :=
  let sid := body.sessionId.getD (JVal.jstr "default")
  let store1 :=
    match sid with
    | JVal.jstr s => Store.del store s
    | JVal.jother => store
  ⟨200, ⟨true, none, none, none, some "History cleared successfully"⟩, store1, false⟩

/-! ### Store lemmas -/

theorem Store.find_put (s : Store) (k : String) (v : List Turn) :
    Store.find (Store.put s k v) k = some v := by
  induction s with
  | nil => simp [Store.put, Store.find]
  | cons hd tl ih =>
      obtain ⟨k', v'⟩ := hd
      by_cases h : k' = k
      · simp [Store.put, Store.find, h]
      · simp [Store.put, Store.find, h, ih]

theorem Store.del_of_absent (s : Store) (k : String) (h : Store.find s k = none) :
    Store.del s k = s := by
  induction s with
  | nil => simp [Store.del]
  | cons hd tl ih =>
      obtain ⟨k', v'⟩ := hd
      by_cases hk : k' = k
      · simp [Store.find, hk] at h
      · simp [Store.find, hk] at h
        simp [Store.del, hk, ih h]

theorem Store.find_del (s : Store) (k : String) :
    Store.find (Store.del s k) k = none := by
  induction s with
  | nil => simp [Store.del, Store.find]
  | cons hd tl ih =>
      obtain ⟨k', v'⟩ := hd
      by_cases hk : k' = k
      · simp [Store.del, hk, ih]
      · simp [Store.del, Store.find, hk, ih]

theorem Store.del_idem (s : Store) (k : String) :
    Store.del (Store.del s k) k = Store.del s k :=
  Store.del_of_absent _ _ (Store.find_del s k)

theorem Store.find_ensure (s : Store) (k : String) :
    Store.find (Store.ensure s k) k = some ((Store.find s k).getD []) := by
  unfold Store.ensure
  cases h : Store.find s k with
  | some v => simp [h]
  | none => simp [Store.find_put]

theorem histOf_ensure (s : Store) (k : String) :
    histOf (Store.ensure s k) k = histOf s k := by
  simp [histOf, Store.find_ensure]

theorem histOf_put (s : Store) (k : String) (v : List Turn) :
    histOf (Store.put s k v) k = v := by
  simp [histOf, Store.find_put]

/-! ### lastN lemmas -/

theorem lastN_length_le {α : Type} (n : Nat) (l : List α) :
    (lastN n l).length ≤ n := by
  simp only [lastN, List.length_drop]
  omega

theorem lastN_suffix {α : Type} (n : Nat) (l : List α) :
    List.IsSuffix (lastN n l) l :=
  List.drop_suffix _ _

theorem lastN_of_length_le {α : Type} {n : Nat} {l : List α}
    (h : l.length ≤ n) : lastN n l = l := by
  have : l.length - n = 0 := by omega
  simp [lastN, this]

/-! ### Path characterizations of `processQuery` -/

/-- The full success path: rewriting (however it went), embedding, search
with a non-empty context, and answer generation all complete. -/
theorem processQuery_success_run (env : Env) (q : String) (sid : JVal) (store : Store)
    (v : List Int) (sr : SearchResults) (ans : String)
    (hq : q ≠ "")
    (hEI : env.embedInitFails = false)
    (hPI : env.pineconeInitFails = false)
    (hemb : env.embedQuery (transformQuery env q (sessionHist store sid)) = Except.ok v)
    (hsr : env.pineconeQuery v = Except.ok sr)
    (hctx : buildContext sr ≠ "")
    (hgen : env.generateText
        (sessionHist store sid ++
          [Turn.mk Role.user (transformQuery env q (sessionHist store sid))])
        (buildContext sr) = Except.ok ans) :
    processQuery env q sid store =
      ⟨⟨true, some ans, some (transformQuery env q (sessionHist store sid)), none, none⟩,
        (let key := sessionKey sid
         let history3 := sessionHist store sid ++
            [Turn.mk Role.user (transformQuery env q (sessionHist store sid)),
             Turn.mk Role.model ans]
         if history3.length > 20 then
            Store.put (Store.put (Store.ensure store key) key (history3.dropLast)) key
              (lastN 20 history3)
         else
            Store.put (Store.put (Store.ensure store key) key (history3.dropLast)) key
              history3),
        true⟩ := by
  simp only [processQuery, sessionHist] at *
  rw [if_neg hq, hEI, hemb]
  simp only [Bool.false_eq_true, if_false]
  rw [hPI]
  simp only [Bool.false_eq_true, if_false]
  rw [hsr]
  simp only []
  rw [if_neg hctx, hgen]
  simp [List.dropLast_concat]

/-- The empty-retrieval short-circuit path: search succeeds but yields no
usable passage, so the canned response is returned, the generator is not
called, and no turn is appended (the store changes only by the lazy
creation of the session's empty entry). -/
theorem processQuery_shortCircuit_run (env : Env) (q : String) (sid : JVal) (store : Store)
    (v : List Int) (sr : SearchResults)
    (hq : q ≠ "")
    (hEI : env.embedInitFails = false)
    (hPI : env.pineconeInitFails = false)
    (hemb : env.embedQuery (transformQuery env q (sessionHist store sid)) = Except.ok v)
    (hsr : env.pineconeQuery v = Except.ok sr)
    (hctx : buildContext sr = "") :
    processQuery env q sid store =
      ⟨⟨true, some notFoundResponse, some (transformQuery env q (sessionHist store sid)),
          none, none⟩,
        Store.ensure store (sessionKey sid), false⟩ := by
  simp only [processQuery, sessionHist] at *
  rw [if_neg hq, hEI, hemb]
  simp only [Bool.false_eq_true, if_false]
  rw [hPI]
  simp only [Bool.false_eq_true, if_false]
  rw [hsr]
  simp [hctx]

/-- The generator-failure path: the rewritten question has already been
appended as a user turn when the Answer Generator call throws; the
returned JSON carries `success:false` with the error message, the user
turn stays in the stored history, and no model turn follows it. -/
theorem processQuery_genFail_run (env : Env) (q : String) (sid : JVal) (store : Store)
    (v : List Int) (sr : SearchResults) (e : String)
    (hq : q ≠ "")
    (hEI : env.embedInitFails = false)
    (hPI : env.pineconeInitFails = false)
    (hemb : env.embedQuery (transformQuery env q (sessionHist store sid)) = Except.ok v)
    (hsr : env.pineconeQuery v = Except.ok sr)
    (hctx : buildContext sr ≠ "")
    (hgen : env.generateText
        (sessionHist store sid ++
          [Turn.mk Role.user (transformQuery env q (sessionHist store sid))])
        (buildContext sr) = Except.error e) :
    processQuery env q sid store =
      ⟨⟨false, none, none, some (errMsg e), none⟩,
        Store.put (Store.ensure store (sessionKey sid)) (sessionKey sid)
          (sessionHist store sid ++
            [Turn.mk Role.user (transformQuery env q (sessionHist store sid))]),
        true⟩ := by
  simp only [processQuery, sessionHist] at *
  rw [if_neg hq, hEI, hemb]
  simp only [Bool.false_eq_true, if_false]
  rw [hPI]
  simp only [Bool.false_eq_true, if_false]
  rw [hsr]
  simp only []
  rw [if_neg hctx, hgen]

/-! ### Concrete environments for witnesses -/

/-- A search match carrying the given passage text. -/
def passage (t : String) : PineMatch := ⟨some ⟨some t⟩⟩

/-- An environment in which every external call succeeds and the search
returns one usable passage. -/
def envOk : Env :=
  ⟨fun _ => Except.ok (some " What is DAX? "), false,
   fun _ => Except.ok [1, 2], false,
   fun _ => Except.ok ⟨some [passage "DAX is a formula language"]⟩,
   fun _ _ => Except.ok "DAX is a formula language used in Power BI."⟩

/-- An environment whose vector search returns an empty match list. -/
def envNoHits : Env :=
  ⟨fun _ => Except.ok (some "standalone question"), false,
   fun _ => Except.ok [3], false,
   fun _ => Except.ok ⟨some []⟩,
   fun _ _ => Except.ok "never used"⟩

/-- An environment whose rewriting LLM call throws. -/
def envRewriteDown : Env :=
  ⟨fun _ => Except.error "rewrite service down", false,
   fun _ => Except.ok [1], false,
   fun _ => Except.ok ⟨some [passage "context passage"]⟩,
   fun _ _ => Except.ok "final answer"⟩

/-- An environment whose Answer Generator call throws. -/
def envGenDown : Env :=
  ⟨fun _ => Except.ok (some "rewritten"), false,
   fun _ => Except.ok [1], false,
   fun _ => Except.ok ⟨some [passage "context passage"]⟩,
   fun _ _ => Except.error "generator exploded"⟩

/-- A store whose session `"s"` already holds 20 turns. -/
def seedStore : Store :=
  [("s", List.replicate 20 (Turn.mk Role.user "old turn"))]

/-! ### Claim theorems -/

/-- C1: for every session, a completed (successful, generating) exchange
through `processQuery` leaves the stored turn sequence at no more than the
configured maximum of 20 turns; the stored sequence is exactly the last 20
of the appended sequence, i.e. a sliding window of the most recently
appended turns in their original relative order (a suffix of the appended
history). -/
theorem history_sliding_window_C1 (env : Env) (q : String) (sid : JVal) (store : Store)
    (v : List Int) (sr : SearchResults) (ans : String)
    (hq : q ≠ "")
    (hEI : env.embedInitFails = false)
    (hPI : env.pineconeInitFails = false)
    (hemb : env.embedQuery (transformQuery env q (sessionHist store sid)) = Except.ok v)
    (hsr : env.pineconeQuery v = Except.ok sr)
    (hctx : buildContext sr ≠ "")
    (hgen : env.generateText
        (sessionHist store sid ++
          [Turn.mk Role.user (transformQuery env q (sessionHist store sid))])
        (buildContext sr) = Except.ok ans) :
    histOf (processQuery env q sid store).store (sessionKey sid) =
      lastN 20 (sessionHist store sid ++
        [Turn.mk Role.user (transformQuery env q (sessionHist store sid)),
         Turn.mk Role.model ans]) ∧
    (histOf (processQuery env q sid store).store (sessionKey sid)).length ≤ 20 ∧
    List.IsSuffix (histOf (processQuery env q sid store).store (sessionKey sid))
      (sessionHist store sid ++
        [Turn.mk Role.user (transformQuery env q (sessionHist store sid)),
         Turn.mk Role.model ans]) := by
  rw [processQuery_success_run env q sid store v sr ans hq hEI hPI hemb hsr hctx hgen]
  dsimp only
  constructor
  · split
    · rw [histOf_put]
    · rw [histOf_put]
      rw [lastN_of_length_le (by omega)]
  · constructor
    · split
      · rw [histOf_put]
        exact lastN_length_le _ _
      · rw [histOf_put]
        omega
    · split
      · rw [histOf_put]
        exact lastN_suffix _ _
      · rw [histOf_put]

theorem history_sliding_window_C1_witness :
    buildContext ⟨some [passage "DAX is a formula language"]⟩ ≠ "" ∧
    (histOf (processQuery envOk "What is DAX?" (JVal.jstr "s") seedStore).store
      (sessionKey (JVal.jstr "s"))).length ≤ 20 ∧
    histOf (processQuery envOk "What is DAX?" (JVal.jstr "s") seedStore).store
        (sessionKey (JVal.jstr "s")) =
      lastN 20 (sessionHist seedStore (JVal.jstr "s") ++
        [Turn.mk Role.user
          (transformQuery envOk "What is DAX?" (sessionHist seedStore (JVal.jstr "s"))),
         Turn.mk Role.model "DAX is a formula language used in Power BI."]) := by
  refine ⟨by decide, ?_, ?_⟩
  · exact (history_sliding_window_C1 envOk "What is DAX?" (JVal.jstr "s") seedStore
      [1, 2] ⟨some [passage "DAX is a formula language"]⟩
      "DAX is a formula language used in Power BI."
      (by decide) rfl rfl rfl rfl (by decide) rfl).2.1
  · exact (history_sliding_window_C1 envOk "What is DAX?" (JVal.jstr "s") seedStore
      [1, 2] ⟨some [passage "DAX is a formula language"]⟩
      "DAX is a formula language used in Power BI."
      (by decide) rfl rfl rfl rfl (by decide) rfl).1

theorem buildContext_eq_intercalate (sr : SearchResults) :
    buildContext sr = String.intercalate "\n\n---\n\n" (usableTexts sr) := by
  cases h : sr.found with
  | none => simp [buildContext, usableTexts, h, String.intercalate]
  | some ms => simp [buildContext, usableTexts, h]

theorem buildContext_of_no_usable (sr : SearchResults) (h : usableTexts sr = []) :
    buildContext sr = "" := by
  rw [buildContext_eq_intercalate, h]
  rfl

/-- C2: whenever the vector search succeeds but yields zero usable
passages (no match with non-empty text metadata), `processQuery` returns
`success:true` with the fixed canned not-found text together with the
transformed query, and the Answer Generator call is never made. -/
theorem empty_retrieval_short_circuit_C2 (env : Env) (q : String) (sid : JVal) (store : Store)
    (v : List Int) (sr : SearchResults)
    (hq : q ≠ "")
    (hEI : env.embedInitFails = false)
    (hPI : env.pineconeInitFails = false)
    (hemb : env.embedQuery (transformQuery env q (sessionHist store sid)) = Except.ok v)
    (hsr : env.pineconeQuery v = Except.ok sr)
    (husable : usableTexts sr = []) :
    processQuery env q sid store =
      ⟨⟨true, some notFoundResponse,
          some (transformQuery env q (sessionHist store sid)), none, none⟩,
        Store.ensure store (sessionKey sid), false⟩ :=
  processQuery_shortCircuit_run env q sid store v sr hq hEI hPI hemb hsr
    (buildContext_of_no_usable sr husable)

theorem empty_retrieval_short_circuit_C2_witness :
    usableTexts ⟨some []⟩ = [] ∧
    processQuery envNoHits "What is DAX?" (JVal.jstr "s2") [] =
      ⟨⟨true, some notFoundResponse,
          some (transformQuery envNoHits "What is DAX?" (sessionHist [] (JVal.jstr "s2"))),
          none, none⟩,
        Store.ensure [] (sessionKey (JVal.jstr "s2")), false⟩ :=
  ⟨by decide,
   empty_retrieval_short_circuit_C2 envNoHits "What is DAX?" (JVal.jstr "s2") []
     [3] ⟨some []⟩ (by decide) rfl rfl rfl rfl (by decide)⟩

/-- C3 counterexample: in the code the empty-retrieval return happens
before any `history.push`, so a first exchange of a fresh session that
retrieves no passages completes with `success:true` yet appends zero
turns to the session history, not one user turn. -/
theorem first_exchange_C3_counterexample :
    (processQuery envNoHits "What is DAX?" (JVal.jstr "s1") []).result.success = true ∧
    histOf (processQuery envNoHits "What is DAX?" (JVal.jstr "s1") []).store "s1" = [] ∧
    (histOf (processQuery envNoHits "What is DAX?" (JVal.jstr "s1") []).store "s1").length ≠ 1 := by
  decide

/-- C3 (amended): a never-seen session starts from the empty turn
sequence produced by the lazy get-or-create step; a first successful
generating exchange appends exactly two turns — the user turn holding the
rewritten question, then the model turn holding the answer — while a
first exchange retrieving no usable passages appends no turns at all
(the canned response is returned with the history left empty). -/
theorem first_exchange_turns_C3 (env1 env2 : Env) (q : String) (sid : JVal) (store : Store)
    (v1 v2 : List Int) (sr1 sr2 : SearchResults) (ans : String)
    (hq : q ≠ "")
    (hfresh : Store.find store (sessionKey sid) = none)
    (hEI1 : env1.embedInitFails = false)
    (hPI1 : env1.pineconeInitFails = false)
    (hemb1 : env1.embedQuery (transformQuery env1 q (sessionHist store sid)) = Except.ok v1)
    (hsr1 : env1.pineconeQuery v1 = Except.ok sr1)
    (hctx1 : buildContext sr1 ≠ "")
    (hgen1 : env1.generateText
        (sessionHist store sid ++
          [Turn.mk Role.user (transformQuery env1 q (sessionHist store sid))])
        (buildContext sr1) = Except.ok ans)
    (hEI2 : env2.embedInitFails = false)
    (hPI2 : env2.pineconeInitFails = false)
    (hemb2 : env2.embedQuery (transformQuery env2 q (sessionHist store sid)) = Except.ok v2)
    (hsr2 : env2.pineconeQuery v2 = Except.ok sr2)
    (husable2 : usableTexts sr2 = []) :
    sessionHist store sid = [] ∧
    histOf (processQuery env1 q sid store).store (sessionKey sid) =
      [Turn.mk Role.user (transformQuery env1 q (sessionHist store sid)),
       Turn.mk Role.model ans] ∧
    histOf (processQuery env2 q sid store).store (sessionKey sid) = [] := by
  have hsess : sessionHist store sid = [] := by
    simp [sessionHist, histOf, Store.find_ensure, hfresh]
  refine ⟨hsess, ?_, ?_⟩
  · rw [processQuery_success_run env1 q sid store v1 sr1 ans hq hEI1 hPI1 hemb1 hsr1
      hctx1 hgen1]
    dsimp only
    rw [hsess]
    split
    · simp_all
    · rw [histOf_put]
      simp
  · rw [processQuery_shortCircuit_run env2 q sid store v2 sr2 hq hEI2 hPI2
      hemb2 hsr2 (buildContext_of_no_usable sr2 husable2)]
    dsimp only
    rw [histOf_ensure]
    simp [histOf, hfresh]

theorem first_exchange_turns_C3_witness :
    Store.find [] (sessionKey (JVal.jstr "sNew")) = none ∧
    sessionHist [] (JVal.jstr "sNew") = [] ∧
    histOf (processQuery envOk "What is DAX?" (JVal.jstr "sNew") []).store
        (sessionKey (JVal.jstr "sNew")) =
      [Turn.mk Role.user
        (transformQuery envOk "What is DAX?" (sessionHist [] (JVal.jstr "sNew"))),
       Turn.mk Role.model "DAX is a formula language used in Power BI."] ∧
    histOf (processQuery envNoHits "What is DAX?" (JVal.jstr "sNew") []).store
        (sessionKey (JVal.jstr "sNew")) = [] := by
  have h := first_exchange_turns_C3 envOk envNoHits "What is DAX?" (JVal.jstr "sNew") []
    [1, 2] [3] ⟨some [passage "DAX is a formula language"]⟩ ⟨some []⟩
    "DAX is a formula language used in Power BI."
    (by decide) (by decide) rfl rfl rfl rfl (by decide) rfl rfl rfl rfl rfl (by decide)
  exact ⟨by decide, h.1, h.2.1, h.2.2⟩

/-- C4: a `POST /api/chat` request whose question is missing, not a
string, or empty/whitespace-only is rejected with status 400 and
`success:false` before the pipeline runs: the conversation store is
returned unchanged (no session created, no turn appended) and the Answer
Generator is never called. -/
theorem invalid_question_rejected_C4 (env : Env) (body : ChatBody) (store : Store)
    (h : validQuestion body.question = false) :
    apiChat env body store =
      ⟨400, ⟨false, none, none,
        some "Question is required and must be a non-empty string", none⟩, store, false⟩ := by
  match hb : body.question with
  | none => simp [apiChat, hb]
  | some JVal.jother => simp [apiChat, hb]
  | some (JVal.jstr q) =>
      rw [hb] at h
      simp only [validQuestion] at h
      by_cases ht : jsTrim q = ""
      · simp [apiChat, hb, ht]
      · simp [ht] at h

theorem invalid_question_rejected_C4_witness :
    validQuestion (ChatBody.mk none none).question = false ∧
    apiChat envOk ⟨none, none⟩ [("keep", [Turn.mk Role.user "kept"])] =
      ⟨400, ⟨false, none, none,
        some "Question is required and must be a non-empty string", none⟩,
        [("keep", [Turn.mk Role.user "kept"])], false⟩ :=
  ⟨by decide,
   invalid_question_rejected_C4 envOk ⟨none, none⟩
     [("keep", [Turn.mk Role.user "kept"])] (by decide)⟩

/-- C5: when the LLM call inside the query rewriter throws,
`transformQuery` returns the original question unchanged and the failure
is absorbed: the pipeline continues to completion, answering with
`success:true` and reporting the unmodified question as the transformed
query. -/
theorem rewriter_fail_open_C5 (env : Env) (q : String) (sid : JVal) (store : Store)
    (v : List Int) (sr : SearchResults) (ans e : String)
    (hq : q ≠ "")
    (hrw : env.rewriteText (sessionHist store sid ++ [Turn.mk Role.user q]) =
      Except.error e)
    (hEI : env.embedInitFails = false)
    (hPI : env.pineconeInitFails = false)
    (hemb : env.embedQuery q = Except.ok v)
    (hsr : env.pineconeQuery v = Except.ok sr)
    (hctx : buildContext sr ≠ "")
    (hgen : env.generateText (sessionHist store sid ++ [Turn.mk Role.user q])
        (buildContext sr) = Except.ok ans) :
    transformQuery env q (sessionHist store sid) = q ∧
    (processQuery env q sid store).result = ⟨true, some ans, some q, none, none⟩ ∧
    (processQuery env q sid store).generatorCalled = true := by
  have htq : transformQuery env q (sessionHist store sid) = q := by
    rw [transformQuery]
    simp only [hrw]
  have hrun := processQuery_success_run env q sid store v sr ans hq hEI hPI
    (by rw [htq]; exact hemb) hsr hctx (by rw [htq]; exact hgen)
  rw [hrun]
  exact ⟨htq, by rw [htq], rfl⟩

theorem rewriter_fail_open_C5_witness :
    envRewriteDown.rewriteText
        (sessionHist [] (JVal.jstr "s5") ++ [Turn.mk Role.user "And DAX?"]) =
      Except.error "rewrite service down" ∧
    transformQuery envRewriteDown "And DAX?" (sessionHist [] (JVal.jstr "s5")) = "And DAX?" ∧
    (processQuery envRewriteDown "And DAX?" (JVal.jstr "s5") []).result =
      ⟨true, some "final answer", some "And DAX?", none, none⟩ := by
  have h := rewriter_fail_open_C5 envRewriteDown "And DAX?" (JVal.jstr "s5") []
    [1] ⟨some [passage "context passage"]⟩ "final answer" "rewrite service down"
    (by decide) rfl rfl rfl rfl rfl (by decide) rfl
  exact ⟨rfl, h.1, h.2.1⟩

/-- C6: the query rewriter trims incidental leading/trailing whitespace
from the LLM's rewritten output, and falls back to the original question
when that output is absent, empty, or whitespace-only (an output whose
trim is empty). -/
theorem rewriter_trim_fallback_C6 (env : Env) (q : String) (history : List Turn)
    (txt : Option String)
    (h : env.rewriteText (history ++ [Turn.mk Role.user q]) = Except.ok txt) :
    transformQuery env q history =
      (if jsTrim (txt.getD "") = "" then q else jsTrim (txt.getD "")) := by
  rw [transformQuery]
  cases txt with
  | none => simp only [h, Option.getD_none]; rw [if_pos (by decide)]
  | some s => simp only [h, Option.getD_some]

theorem rewriter_trim_fallback_C6_witness :
    envOk.rewriteText ([] ++ [Turn.mk Role.user "q"]) =
      Except.ok (some " What is DAX? ") ∧
    transformQuery envOk "q" [] = "What is DAX?" := by
  have h := rewriter_trim_fallback_C6 envOk "q" [] (some " What is DAX? ") rfl
  exact ⟨rfl, by rw [h]; decide⟩

/-- C7: when the Answer Generator call throws after the rewritten
question has been appended as a user turn, `processQuery` returns a JSON
body with `success:false` and the error's human-readable message, and the
session history keeps the already-appended user turn as its last entry
with no model turn after it. -/
theorem generator_failure_partial_history_C7 (env : Env) (q : String) (sid : JVal)
    (store : Store) (v : List Int) (sr : SearchResults) (e : String)
    (hq : q ≠ "")
    (hEI : env.embedInitFails = false)
    (hPI : env.pineconeInitFails = false)
    (hemb : env.embedQuery (transformQuery env q (sessionHist store sid)) = Except.ok v)
    (hsr : env.pineconeQuery v = Except.ok sr)
    (hctx : buildContext sr ≠ "")
    (hgen : env.generateText
        (sessionHist store sid ++
          [Turn.mk Role.user (transformQuery env q (sessionHist store sid))])
        (buildContext sr) = Except.error e) :
    (processQuery env q sid store).result = ⟨false, none, none, some (errMsg e), none⟩ ∧
    histOf (processQuery env q sid store).store (sessionKey sid) =
      sessionHist store sid ++
        [Turn.mk Role.user (transformQuery env q (sessionHist store sid))] := by
  rw [processQuery_genFail_run env q sid store v sr e hq hEI hPI hemb hsr hctx hgen]
  exact ⟨rfl, histOf_put _ _ _⟩

theorem generator_failure_partial_history_C7_witness :
    envGenDown.generateText
        (sessionHist [] (JVal.jstr "s7") ++
          [Turn.mk Role.user
            (transformQuery envGenDown "What is DAX?" (sessionHist [] (JVal.jstr "s7")))])
        (buildContext ⟨some [passage "context passage"]⟩) =
      Except.error "generator exploded" ∧
    (processQuery envGenDown "What is DAX?" (JVal.jstr "s7") []).result =
      ⟨false, none, none, some (errMsg "generator exploded"), none⟩ ∧
    histOf (processQuery envGenDown "What is DAX?" (JVal.jstr "s7") []).store
        (sessionKey (JVal.jstr "s7")) =
      sessionHist [] (JVal.jstr "s7") ++
        [Turn.mk Role.user
          (transformQuery envGenDown "What is DAX?" (sessionHist [] (JVal.jstr "s7")))] := by
  have h := generator_failure_partial_history_C7 envGenDown "What is DAX?"
    (JVal.jstr "s7") [] [1] ⟨some [passage "context passage"]⟩ "generator exploded"
    (by decide) rfl rfl rfl rfl (by decide) rfl
  exact ⟨rfl, h.1, h.2⟩

theorem usable_filter_eq_filterMap (ms : List PineMatch) :
    (ms.map fun m => ((m.metadata.bind MatchMeta.text).getD "")).filter
        (fun t => t.length != 0) =
      ms.filterMap (fun m =>
        match m.metadata with
        | none => none
        | some md =>
            match md.text with
            | none => none
            | some t => if t = "" then none else some t) := by
  induction ms with
  | nil => rfl
  | cons m rest ih =>
      match m with
      | ⟨none⟩ => simpa using ih
      | ⟨some ⟨none⟩⟩ => simpa using ih
      | ⟨some ⟨some t⟩⟩ =>
          by_cases ht : t = ""
          · subst ht
            simpa using ih
          · have ht' : (t.length != 0) = true := by
              cases t with
              | mk cs =>
                  cases cs with
                  | nil => exact absurd rfl ht
                  | cons c cs' => simp [String.length]
            simp [List.map_cons, List.filter_cons, List.filterMap_cons, ht, ht', ih]

/-- C8: the context block is assembled exactly as the spec describes —
take each match's text metadata, silently drop passages whose text
metadata is missing or empty, and join the survivors with the visible
separator `"\n\n---\n\n"` in retrieval order (`specContext` is the spec's
wording; an absent match list behaves as an empty one). -/
theorem context_assembly_C8 (sr : SearchResults) :
    buildContext sr = specContext (sr.found.getD []) := by
  cases h : sr.found with
  | none =>
      simp only [buildContext, specContext, h, Option.getD_none, List.filterMap_nil]
      rfl
  | some ms =>
      simp only [buildContext, specContext, h, Option.getD_some]
      rw [usable_filter_eq_filterMap]

/-- C9: `POST /api/clear-history` removes the session's entry and always
replies 200 with a success body; clearing a never-used session id leaves
the store exactly as it was, and clearing twice leaves the same store as
clearing once (idempotence); afterwards the session id maps to nothing. -/
theorem clear_history_idempotent_C9 (store : Store) (k : String)
    (habsent : Store.find store k = none) :
    (apiClearHistory ⟨some (JVal.jstr k)⟩ store).status = 200 ∧
    (apiClearHistory ⟨some (JVal.jstr k)⟩ store).body.success = true ∧
    (apiClearHistory ⟨some (JVal.jstr k)⟩ store).store = store ∧
    (∀ s : Store,
      Store.find (apiClearHistory ⟨some (JVal.jstr k)⟩ s).store k = none) ∧
    (∀ s : Store,
      (apiClearHistory ⟨some (JVal.jstr k)⟩
          (apiClearHistory ⟨some (JVal.jstr k)⟩ s).store).store =
        (apiClearHistory ⟨some (JVal.jstr k)⟩ s).store) := by
  refine ⟨rfl, rfl, ?_, ?_, ?_⟩
  · exact Store.del_of_absent store k habsent
  · intro s
    exact Store.find_del s k
  · intro s
    exact Store.del_idem s k

theorem clear_history_idempotent_C9_witness :
    Store.find [("other", [Turn.mk Role.user "hi"])] "never-used" = none ∧
    (apiClearHistory ⟨some (JVal.jstr "never-used")⟩
        [("other", [Turn.mk Role.user "hi"])]).status = 200 ∧
    (apiClearHistory ⟨some (JVal.jstr "never-used")⟩
        [("other", [Turn.mk Role.user "hi"])]).store =
      [("other", [Turn.mk Role.user "hi"])] := by
  have h := clear_history_idempotent_C9 [("other", [Turn.mk Role.user "hi"])]
    "never-used" (by decide)
  exact ⟨by decide, h.1, h.2.2.1⟩

theorem processQuery_congr_key (env : Env) (q : String) (store : Store)
    (sid1 sid2 : JVal) (h : sessionKey sid1 = sessionKey sid2) :
    processQuery env q sid1 store = processQuery env q sid2 store := by
  simp only [processQuery, h]

/-- C10: a `POST /api/chat` request without a `sessionId`, or with a
non-string one, operates on the fixed session key `"default"`: it behaves
exactly like a request that passes `"default"` explicitly, and the
history it starts from is the `"default"` session's stored history. -/
theorem default_session_key_C10 (env : Env) (q : String) (store : Store) :
    processQuery env q JVal.jother store =
      processQuery env q (JVal.jstr "default") store ∧
    apiChat env ⟨some (JVal.jstr q), none⟩ store =
      apiChat env ⟨some (JVal.jstr q), some (JVal.jstr "default")⟩ store ∧
    apiChat env ⟨some (JVal.jstr q), some JVal.jother⟩ store =
      apiChat env ⟨some (JVal.jstr q), some (JVal.jstr "default")⟩ store ∧
    sessionHist store JVal.jother = histOf store "default" := by
  have hkey : sessionKey JVal.jother = sessionKey (JVal.jstr "default") := by
    simp [sessionKey]
  refine ⟨processQuery_congr_key env q store _ _ hkey, rfl, ?_, ?_⟩
  · simp only [apiChat]
    by_cases ht : jsTrim q = ""
    · simp [ht]
    · simp only [ht, if_false, Option.getD_some]
      rw [processQuery_congr_key env (jsTrim q) store _ _ hkey]
  · rw [sessionHist]
    have : sessionKey JVal.jother = "default" := rfl
    rw [this, histOf_ensure]

end PowerBIRag
